import Mathlib

/-!
Verification of the boid flocking simulation in `src/main.cpp`.

The C++ program works on `Vector2` of 32-bit floats (raylib / raymath).
We model the numeric pipeline over the real numbers, translating each
function of the source one-to-one:

* `Vec2.add`, `Vec2.sub`, `Vec2.scale`, `Vec2.length`, `Vec2.normalize`,
  `Vec2.distance` follow raymath's `Vector2Add`, `Vector2Subtract`,
  `Vector2Scale`, `Vector2Length`, `Vector2Normalize` (which returns the
  zero vector when the input has zero length), `Vector2Distance`;
* `Boid.update`, `Boid.applyForce`, `Boid.borders`, `Boid.separate`,
  `Boid.align`, `Boid.cohesion` follow the member functions of `struct Boid`;
* `processBoid`, `runTick`, `seqTick` follow the per-tick loop of `main`,
  which mutates the boid vector in place, one boid at a time;
  `snapTick` is the fully snapshotted two-phase tick, stated from the
  spec for the refinement comparison.
-/

noncomputable section

/-- Two-dimensional vector over the reals, modelling raymath `Vector2`. -/
@[ext]
structure Vec2 where
  x : ℝ
  y : ℝ

namespace Vec2

/-- raymath `Vector2Add`. -/
def add (a b : Vec2) : Vec2 := ⟨a.x + b.x, a.y + b.y⟩

/-- raymath `Vector2Subtract`. -/
def sub (a b : Vec2) : Vec2 := ⟨a.x - b.x, a.y - b.y⟩

/-- raymath `Vector2Scale`. -/
def scale (v : Vec2) (c : ℝ) : Vec2 := ⟨v.x * c, v.y * c⟩

/-- raymath `Vector2Length`: `sqrt(x*x + y*y)`. -/
def length (v : Vec2) : ℝ := Real.sqrt (v.x * v.x + v.y * v.y)

/-- raymath `Vector2Normalize`: divides by the length when it is positive,
otherwise returns the zero vector. -/
def normalize (v : Vec2) : Vec2 :=
  if 0 < length v then ⟨v.x * (1 / length v), v.y * (1 / length v)⟩ else ⟨0, 0⟩

/-- raymath `Vector2Distance`: `sqrt((x1-x2)^2 + (y1-y2)^2)`. -/
def distance (a b : Vec2) : ℝ :=
  Real.sqrt ((a.x - b.x) * (a.x - b.x) + (a.y - b.y) * (a.y - b.y))

end Vec2

/-- C `atan2`, modelled as the argument of the complex number `x + i y`. -/
def atan2 (y x : ℝ) : ℝ := Complex.arg { re := x, im := y }

/-- `screenWidth` constant of `main.cpp` (1200). -/
def screenWidth : ℝ := 1200

/-- `screenHeight` constant of `main.cpp` (800). -/
def screenHeight : ℝ := 800

/-- `MAX_SPEED` constant of `main.cpp` (2.5f). -/
def MAX_SPEED : ℝ := 2.5

/-- `MAX_FORCE` constant of `main.cpp` (0.1f). -/
def MAX_FORCE : ℝ := 0.1

/-- `NEIGHBOR_RADIUS` constant of `main.cpp` (100.0f). -/
def NEIGHBOR_RADIUS : ℝ := 100

/-- `SEPARATION_RADIUS` constant of `main.cpp` (20.0f). -/
def SEPARATION_RADIUS : ℝ := 20

/-- `COHESION_WEIGHT` constant of `main.cpp` (0.5f). -/
def COHESION_WEIGHT : ℝ := 0.5

/-- `ALIGNMENT_WEIGHT` constant of `main.cpp` (0.1f). -/
def ALIGNMENT_WEIGHT : ℝ := 0.1

/-- `SEPARATION_WEIGHT` constant of `main.cpp` (0.2f). -/
def SEPARATION_WEIGHT : ℝ := 0.2

/-- `struct Boid` of `main.cpp`. -/
@[ext]
structure Boid where
  position : Vec2
  velocity : Vec2
  acceleration : Vec2
  rotation : ℝ

namespace Boid

/-- `Boid::update`: add acceleration to velocity, renormalize the velocity
to `MAX_SPEED`, advance the position, reset the acceleration, recompute
the rotation. -/
def update (b : Boid) : Boid :=
  let v := Vec2.scale (Vec2.normalize (Vec2.add b.velocity b.acceleration)) MAX_SPEED
  { position := Vec2.add b.position v
    velocity := v
    acceleration := ⟨0, 0⟩
    rotation := atan2 v.y v.x }

/-- `Boid::applyForce`: accumulate a force into the acceleration. -/
def applyForce (b : Boid) (force : Vec2) : Boid :=
  { b with acceleration := Vec2.add b.acceleration force }

/-- One coordinate of `Boid::borders`: first `if (c < 0) c = bound;`,
then `if (c > bound) c = 0;` on the updated value. -/
def wrapCoord (c bound : ℝ) : ℝ :=
  let c1 := if c < 0 then bound else c
  if bound < c1 then 0 else c1

/-- `Boid::borders`: wrap each position coordinate at the screen edges. -/
def borders (b : Boid) : Boid :=
  { b with
      position := ⟨wrapCoord b.position.x screenWidth, wrapCoord b.position.y screenHeight⟩ }

/-- Loop body of `Boid::separate`: if the other boid is at distance
`0 < d < SEPARATION_RADIUS`, accumulate the normalized away-pointing
vector scaled by `1/d` and bump the count. -/
def separateStep (b : Boid) (acc : Vec2 × ℕ) (other : Boid) : Vec2 × ℕ :=
  let d := Vec2.distance b.position other.position
  if 0 < d ∧ d < SEPARATION_RADIUS then
    (Vec2.add acc.1 (Vec2.scale (Vec2.normalize (Vec2.sub b.position other.position)) (1 / d)),
     acc.2 + 1)
  else acc

/-- `Boid::separate`. -/
def separate (b : Boid) (boids : List Boid) : Vec2 :=
  let sc := boids.foldl (separateStep b) (⟨0, 0⟩, 0)
  let steer := if 0 < sc.2 then Vec2.scale sc.1 (1 / (sc.2 : ℝ)) else sc.1
  if 0 < Vec2.length steer then
    let s1 := Vec2.sub (Vec2.scale (Vec2.normalize steer) MAX_SPEED) b.velocity
    if MAX_FORCE < Vec2.length s1 then Vec2.scale (Vec2.normalize s1) MAX_FORCE else s1
  else steer

/-- Loop body of `Boid::align`: if the other boid is at distance
`0 < d < NEIGHBOR_RADIUS`, accumulate its velocity and bump the count. -/
def alignStep (b : Boid) (acc : Vec2 × ℕ) (other : Boid) : Vec2 × ℕ :=
  let d := Vec2.distance b.position other.position
  if 0 < d ∧ d < NEIGHBOR_RADIUS then (Vec2.add acc.1 other.velocity, acc.2 + 1) else acc

/-- `Boid::align`. -/
def align (b : Boid) (boids : List Boid) : Vec2 :=
  let sc := boids.foldl (alignStep b) (⟨0, 0⟩, 0)
  if 0 < sc.2 then
    let avg := Vec2.scale (Vec2.normalize (Vec2.scale sc.1 (1 / (sc.2 : ℝ)))) MAX_SPEED
    let steer := Vec2.sub avg b.velocity
    if MAX_FORCE < Vec2.length steer then Vec2.scale (Vec2.normalize steer) MAX_FORCE else steer
  else ⟨0, 0⟩

/-- Loop body of `Boid::cohesion`: if the other boid is at distance
`0 < d < NEIGHBOR_RADIUS`, accumulate its position and bump the count. -/
def cohesionStep (b : Boid) (acc : Vec2 × ℕ) (other : Boid) : Vec2 × ℕ :=
  let d := Vec2.distance b.position other.position
  if 0 < d ∧ d < NEIGHBOR_RADIUS then (Vec2.add acc.1 other.position, acc.2 + 1) else acc

/-- `Boid::cohesion`. -/
def cohesion (b : Boid) (boids : List Boid) : Vec2 :=
  let sc := boids.foldl (cohesionStep b) (⟨0, 0⟩, 0)
  if 0 < sc.2 then
    let target := Vec2.scale sc.1 (1 / (sc.2 : ℝ))
    let steer :=
      Vec2.sub (Vec2.scale (Vec2.normalize (Vec2.sub target b.position)) MAX_SPEED) b.velocity
    if MAX_FORCE < Vec2.length steer then Vec2.scale (Vec2.normalize steer) MAX_FORCE else steer
  else ⟨0, 0⟩

end Boid

/-- Body of the per-boid part of the main loop: compute the three steering
forces against `flock`, weight them, apply them, then `update` and
`borders`. -/
def processBoid (flock : List Boid) (b : Boid) : Boid :=
  let sep := Vec2.scale (b.separate flock) SEPARATION_WEIGHT
  let ali := Vec2.scale (b.align flock) ALIGNMENT_WEIGHT
  let coh := Vec2.scale (b.cohesion flock) COHESION_WEIGHT
  Boid.borders (Boid.update (((b.applyForce sep).applyForce ali).applyForce coh))

/-- The in-place sequential loop of `main`: the boid being processed sees
the already-updated prefix `done` together with itself and the untouched
rest of the vector. -/
def runTick : List Boid → List Boid → List Boid
  | done, [] => done
  | done, b :: rest => runTick (done ++ [processBoid (done ++ b :: rest) b]) rest

/-- One simulation tick exactly as `main` performs it. -/
def seqTick (flock : List Boid) : List Boid := runTick [] flock

/-- Modelled from the spec: the fully snapshotted two-phase tick, in which
every boid is processed against the flock state from the end of the
previous tick. -/
def snapTick (flock : List Boid) : List Boid := flock.map (processBoid flock)

/-- Initial state produced by the `Boid` constructor as called from `main`:
integer position coordinates drawn from `[0, screenWidth] × [0, screenHeight]`
(`GetRandomValue` is inclusive on both ends), integer velocity components in
`[-2, 2]`, zero acceleration, rotation derived from the velocity. -/
def initBoid (b : Boid) : Prop :=
  (∃ i : ℤ, 0 ≤ i ∧ (i : ℝ) ≤ screenWidth ∧ b.position.x = (i : ℝ)) ∧
  (∃ j : ℤ, 0 ≤ j ∧ (j : ℝ) ≤ screenHeight ∧ b.position.y = (j : ℝ)) ∧
  (∃ k : ℤ, -2 ≤ k ∧ k ≤ 2 ∧ b.velocity.x = (k : ℝ)) ∧
  (∃ m : ℤ, -2 ≤ m ∧ m ≤ 2 ∧ b.velocity.y = (m : ℝ)) ∧
  b.acceleration = ⟨0, 0⟩ ∧ b.rotation = atan2 b.velocity.y b.velocity.x

/-- The states the simulation can reach: an initial flock, or the result of
running some number of ticks from one. -/
inductive Reachable : List Boid → Prop
  | init (flock : List Boid) (h : ∀ b ∈ flock, initBoid b) : Reachable flock
  | step (flock : List Boid) (h : Reachable flock) : Reachable (seqTick flock)

namespace Vec2

lemma length_nonneg (v : Vec2) : 0 ≤ length v := Real.sqrt_nonneg _

lemma length_zero : length ⟨0, 0⟩ = 0 := by
  unfold length
  norm_num

lemma length_eq_zero_iff (v : Vec2) : length v = 0 ↔ v = ⟨0, 0⟩ := by
  unfold length
  rw [Real.sqrt_eq_zero (add_nonneg (mul_self_nonneg _) (mul_self_nonneg _))]
  constructor
  · intro h
    have hx : v.x = 0 := by nlinarith [mul_self_nonneg v.x, mul_self_nonneg v.y]
    have hy : v.y = 0 := by nlinarith [mul_self_nonneg v.x, mul_self_nonneg v.y]
    ext
    · exact hx
    · exact hy
  · intro h
    rw [h]
    norm_num

lemma length_pos_iff (v : Vec2) : 0 < length v ↔ v ≠ ⟨0, 0⟩ := by
  rw [lt_iff_le_and_ne, ne_comm]
  simp [length_nonneg, length_eq_zero_iff]

lemma length_scale (v : Vec2) (c : ℝ) : length (scale v c) = |c| * length v := by
  unfold length scale
  simp only
  rw [show v.x * c * (v.x * c) + v.y * c * (v.y * c) = c * c * (v.x * v.x + v.y * v.y) by ring]
  rw [Real.sqrt_mul (mul_self_nonneg c), Real.sqrt_mul_self_eq_abs]

lemma normalize_eq_scale (v : Vec2) (h : 0 < length v) :
    normalize v = scale v (1 / length v) := by
  unfold normalize scale
  rw [if_pos h]

lemma length_normalize (v : Vec2) (h : 0 < length v) : length (normalize v) = 1 := by
  rw [normalize_eq_scale v h, length_scale, abs_of_pos (by positivity), one_div,
    inv_mul_cancel₀ (ne_of_gt h)]

lemma distance_self (p : Vec2) : distance p p = 0 := by
  unfold distance
  simp

lemma distance_comm (a b : Vec2) : distance a b = distance b a := by
  unfold distance
  congr 1
  ring

lemma add_zero_right (a : Vec2) : add a ⟨0, 0⟩ = a := by
  unfold add
  ext <;> simp

lemma scale_zero_vec (c : ℝ) : scale ⟨0, 0⟩ c = ⟨0, 0⟩ := by
  unfold scale
  ext <;> simp

lemma sqrt_eval {a b : ℝ} (hb : 0 ≤ b) (h : b * b = a) : Real.sqrt a = b := by
  rw [← h, Real.sqrt_mul_self hb]

end Vec2

namespace Boid

lemma wrapCoord_mem (c bound : ℝ) (hb : 0 ≤ bound) :
    0 ≤ wrapCoord c bound ∧ wrapCoord c bound ≤ bound := by
  unfold wrapCoord
  dsimp only
  split_ifs with h1 h2 h2 <;> constructor <;> linarith

lemma wrapCoord_of_mem (c bound : ℝ) (h0 : 0 ≤ c) (h1 : c ≤ bound) :
    wrapCoord c bound = c := by
  unfold wrapCoord
  rw [if_neg (not_lt.mpr h0), if_neg (not_lt.mpr h1)]

end Boid

/-- Folding is unchanged by a list element the fold function ignores. -/
lemma foldl_skip_middle {α β : Type} (f : β → α → β) (i : β) (o : α) (l1 l2 : List α)
    (h : ∀ acc, f acc o = acc) :
    (l1 ++ o :: l2).foldl f i = (l1 ++ l2).foldl f i := by
  rw [List.foldl_append, List.foldl_append, List.foldl_cons, h]

/-- Folding over a list every element of which the fold function ignores
returns the initial accumulator. -/
lemma foldl_skip_all {α β : Type} (f : β → α → β) (i : β) (l : List α)
    (h : ∀ a ∈ l, ∀ acc, f acc a = acc) : l.foldl f i = i := by
  induction l generalizing i with
  | nil => rfl
  | cons a l ih =>
      rw [List.foldl_cons, h a (List.mem_cons_self a l)]
      exact ih i (fun a ha acc => h a (List.mem_cons_of_mem _ ha) acc)

namespace Boid

lemma separateStep_skip (b other : Boid) (acc : Vec2 × ℕ)
    (h : ¬(0 < Vec2.distance b.position other.position ∧
        Vec2.distance b.position other.position < SEPARATION_RADIUS)) :
    separateStep b acc other = acc := by
  simp only [separateStep]
  rw [if_neg h]

lemma alignStep_skip (b other : Boid) (acc : Vec2 × ℕ)
    (h : ¬(0 < Vec2.distance b.position other.position ∧
        Vec2.distance b.position other.position < NEIGHBOR_RADIUS)) :
    alignStep b acc other = acc := by
  simp only [alignStep]
  rw [if_neg h]

lemma cohesionStep_skip (b other : Boid) (acc : Vec2 × ℕ)
    (h : ¬(0 < Vec2.distance b.position other.position ∧
        Vec2.distance b.position other.position < NEIGHBOR_RADIUS)) :
    cohesionStep b acc other = acc := by
  simp only [cohesionStep]
  rw [if_neg h]

lemma separate_no_neighbors (b : Boid) (flock : List Boid)
    (h : ∀ o ∈ flock, ¬(0 < Vec2.distance b.position o.position ∧
        Vec2.distance b.position o.position < SEPARATION_RADIUS)) :
    separate b flock = ⟨0, 0⟩ := by
  simp only [separate]
  rw [foldl_skip_all _ _ _ (fun o ho acc => separateStep_skip b o acc (h o ho))]
  norm_num [Vec2.length_zero]

lemma align_no_neighbors (b : Boid) (flock : List Boid)
    (h : ∀ o ∈ flock, ¬(0 < Vec2.distance b.position o.position ∧
        Vec2.distance b.position o.position < NEIGHBOR_RADIUS)) :
    align b flock = ⟨0, 0⟩ := by
  simp only [align]
  rw [foldl_skip_all _ _ _ (fun o ho acc => alignStep_skip b o acc (h o ho))]
  norm_num

lemma cohesion_no_neighbors (b : Boid) (flock : List Boid)
    (h : ∀ o ∈ flock, ¬(0 < Vec2.distance b.position o.position ∧
        Vec2.distance b.position o.position < NEIGHBOR_RADIUS)) :
    cohesion b flock = ⟨0, 0⟩ := by
  simp only [cohesion]
  rw [foldl_skip_all _ _ _ (fun o ho acc => cohesionStep_skip b o acc (h o ho))]
  norm_num

lemma max_force_pos : (0:ℝ) < MAX_FORCE := by
  norm_num [MAX_FORCE]

lemma length_clamp_le (s : Vec2) :
    Vec2.length (if MAX_FORCE < Vec2.length s then Vec2.scale (Vec2.normalize s) MAX_FORCE
      else s) ≤ MAX_FORCE := by
  split_ifs with h
  · rw [Vec2.length_scale, Vec2.length_normalize _ (lt_trans max_force_pos h), mul_one,
      abs_of_pos max_force_pos]
  · exact not_lt.mp h

lemma length_guard_clamp_le (steer s1 : Vec2) :
    Vec2.length (if 0 < Vec2.length steer then
        (if MAX_FORCE < Vec2.length s1 then Vec2.scale (Vec2.normalize s1) MAX_FORCE else s1)
      else steer) ≤ MAX_FORCE := by
  split_ifs with h1 h2
  · rw [Vec2.length_scale, Vec2.length_normalize _ (lt_trans max_force_pos h2), mul_one,
      abs_of_pos max_force_pos]
  · exact not_lt.mp h2
  · have h0 := Vec2.length_nonneg steer
    have h2 := not_lt.mp h1
    linarith [max_force_pos]

lemma length_separate_le (b : Boid) (flock : List Boid) :
    Vec2.length (separate b flock) ≤ MAX_FORCE := by
  simp only [separate]
  exact length_guard_clamp_le _ _

lemma length_align_le (b : Boid) (flock : List Boid) :
    Vec2.length (align b flock) ≤ MAX_FORCE := by
  simp only [align]
  split_ifs with h1 h2
  · rw [Vec2.length_scale, Vec2.length_normalize _ (lt_trans max_force_pos h2), mul_one,
      abs_of_pos max_force_pos]
  · exact not_lt.mp h2
  · rw [Vec2.length_zero]
    linarith [max_force_pos]

lemma length_cohesion_le (b : Boid) (flock : List Boid) :
    Vec2.length (cohesion b flock) ≤ MAX_FORCE := by
  simp only [cohesion]
  split_ifs with h1 h2
  · rw [Vec2.length_scale, Vec2.length_normalize _ (lt_trans max_force_pos h2), mul_one,
      abs_of_pos max_force_pos]
  · exact not_lt.mp h2
  · rw [Vec2.length_zero]
    linarith [max_force_pos]

end Boid

namespace Boid

lemma wrapCoord_of_gt (c bound : ℝ) (hb : 0 ≤ bound) (h : bound < c) :
    wrapCoord c bound = 0 := by
  unfold wrapCoord
  dsimp only
  rw [if_neg (not_lt.mpr (le_of_lt (lt_of_le_of_lt hb h))), if_pos h]

lemma wrapCoord_of_neg (c bound : ℝ) (h : c < 0) : wrapCoord c bound = bound := by
  unfold wrapCoord
  dsimp only
  rw [if_pos h, if_neg (lt_irrefl bound)]

end Boid

/-- C9: `Boid::borders` modifies only the position field; the velocity,
acceleration and rotation of the boid are unchanged by the boundary step. -/
theorem borders_only_position (b : Boid) :
    (Boid.borders b).velocity = b.velocity ∧
    (Boid.borders b).acceleration = b.acceleration ∧
    (Boid.borders b).rotation = b.rotation :=
  ⟨rfl, rfl, rfl⟩

/-- C10: `Boid::borders` is idempotent: applying the boundary step twice
yields the same state as applying it once. -/
theorem borders_idempotent (b : Boid) :
    Boid.borders (Boid.borders b) = Boid.borders b := by
  have hx := Boid.wrapCoord_mem b.position.x screenWidth (by norm_num [screenWidth])
  have hy := Boid.wrapCoord_mem b.position.y screenHeight (by norm_num [screenHeight])
  ext
  · exact Boid.wrapCoord_of_mem _ _ hx.1 hx.2
  · exact Boid.wrapCoord_of_mem _ _ hy.1 hy.2
  · rfl
  · rfl
  · rfl
  · rfl
  · rfl

/-- C1 (amended): after `Boid::borders` the position lies in the closed box
`[0, screenWidth] × [0, screenHeight]`; a coordinate strictly above its
bound is reset to 0, a coordinate exactly at its bound is left unchanged
(so it is not mapped to 0), and a coordinate below 0 is reset to exactly
the bound (not to a value strictly below it). -/
theorem borders_closed_range (b : Boid) :
    (0 ≤ (Boid.borders b).position.x ∧ (Boid.borders b).position.x ≤ screenWidth ∧
      0 ≤ (Boid.borders b).position.y ∧ (Boid.borders b).position.y ≤ screenHeight) ∧
    (screenWidth < b.position.x → (Boid.borders b).position.x = 0) ∧
    (b.position.x < 0 → (Boid.borders b).position.x = screenWidth) ∧
    (screenHeight < b.position.y → (Boid.borders b).position.y = 0) ∧
    (b.position.y < 0 → (Boid.borders b).position.y = screenHeight) := by
  have hx := Boid.wrapCoord_mem b.position.x screenWidth (by norm_num [screenWidth])
  have hy := Boid.wrapCoord_mem b.position.y screenHeight (by norm_num [screenHeight])
  refine ⟨⟨hx.1, hx.2, hy.1, hy.2⟩, ?_, ?_, ?_, ?_⟩
  · intro h
    exact Boid.wrapCoord_of_gt _ _ (by norm_num [screenWidth]) h
  · intro h
    exact Boid.wrapCoord_of_neg _ _ h
  · intro h
    exact Boid.wrapCoord_of_gt _ _ (by norm_num [screenHeight]) h
  · intro h
    exact Boid.wrapCoord_of_neg _ _ h

/-- Boid sitting exactly on the right edge and just below the top edge. -/
def bCE1 : Boid := ⟨⟨1200, -1⟩, ⟨0, 0⟩, ⟨0, 0⟩, 0⟩

/-- C1 counterexample: for the boid at position `(1200, -1)`, `borders`
leaves the x coordinate at `screenWidth` (it is not mapped to 0 and is not
strictly below the bound) and maps the negative y coordinate to exactly
`screenHeight`, not to a value strictly below it. -/
theorem borders_open_range_counterexample :
    (Boid.borders bCE1).position.x = screenWidth ∧
    (Boid.borders bCE1).position.y = screenHeight ∧
    ¬((Boid.borders bCE1).position.x < screenWidth) ∧
    ¬((Boid.borders bCE1).position.y < screenHeight) ∧
    (Boid.borders bCE1).position.x ≠ 0 := by
  have hx : (Boid.borders bCE1).position.x = screenWidth := by
    show Boid.wrapCoord 1200 screenWidth = screenWidth
    rw [Boid.wrapCoord_of_mem _ _ (by norm_num) (by norm_num [screenWidth])]
    norm_num [screenWidth]
  have hy : (Boid.borders bCE1).position.y = screenHeight := by
    show Boid.wrapCoord (-1) screenHeight = screenHeight
    exact Boid.wrapCoord_of_neg _ _ (by norm_num)
  refine ⟨hx, hy, ?_, ?_, ?_⟩
  · rw [hx]
    exact lt_irrefl _
  · rw [hy]
    exact lt_irrefl _
  · rw [hx]
    norm_num [screenWidth]

/-- Boid used to witness the amended boundary law. -/
def bW1 : Boid := ⟨⟨1300, -5⟩, ⟨0, 0⟩, ⟨0, 0⟩, 0⟩

/-- Witness for C1 (amended) at the concrete boid `bW1`. -/
theorem borders_closed_range_witness :
    screenWidth < bW1.position.x ∧ bW1.position.y < 0 ∧
    (Boid.borders bW1).position.x = 0 ∧ (Boid.borders bW1).position.y = screenHeight := by
  refine ⟨?_, ?_, ?_, ?_⟩
  · show screenWidth < 1300
    norm_num [screenWidth]
  · show (-5 : ℝ) < 0
    norm_num
  · exact (borders_closed_range bW1).2.1 (by show screenWidth < 1300; norm_num [screenWidth])
  · exact (borders_closed_range bW1).2.2.2.2 (by show (-5 : ℝ) < 0; norm_num)

/-- C2: after `Boid::update`, the velocity magnitude equals `MAX_SPEED`
exactly — the velocity is renormalized to full speed even when the
pre-integration speed was below maximum — provided the sum of the old
velocity and the acceleration is not the exact zero vector. -/
theorem update_speed_eq_max (b : Boid)
    (h : Vec2.add b.velocity b.acceleration ≠ ⟨0, 0⟩) :
    Vec2.length (Boid.update b).velocity = MAX_SPEED := by
  have hpos : 0 < Vec2.length (Vec2.add b.velocity b.acceleration) :=
    (Vec2.length_pos_iff _).mpr h
  show Vec2.length
      (Vec2.scale (Vec2.normalize (Vec2.add b.velocity b.acceleration)) MAX_SPEED) = MAX_SPEED
  rw [Vec2.length_scale, Vec2.length_normalize _ hpos, mul_one,
    abs_of_pos (by norm_num [MAX_SPEED] : (0:ℝ) < MAX_SPEED)]

/-- Boid with velocity `(3, 4)` (of magnitude 5, above `MAX_SPEED`). -/
def bC2 : Boid := ⟨⟨0, 0⟩, ⟨3, 4⟩, ⟨0, 0⟩, 0⟩

/-- Witness for C2 at the concrete boid `bC2`. -/
theorem update_speed_eq_max_witness :
    Vec2.add bC2.velocity bC2.acceleration ≠ ⟨0, 0⟩ ∧
    Vec2.length (Boid.update bC2).velocity = MAX_SPEED := by
  have h : Vec2.add bC2.velocity bC2.acceleration ≠ ⟨0, 0⟩ := by
    simp only [bC2, Vec2.add]
    intro hc
    have hcx := congrArg Vec2.x hc
    norm_num at hcx
  exact ⟨h, update_speed_eq_max bC2 h⟩

/-- C5: for each of the three steering rules, whenever at least one other
agent lies within the rule's radius, the magnitude of the returned force
is at most `MAX_FORCE`. -/
theorem steering_le_max_force (b : Boid) (flock : List Boid)
    (_hsep : ∃ o ∈ flock, 0 < Vec2.distance b.position o.position ∧
        Vec2.distance b.position o.position < SEPARATION_RADIUS)
    (_hnei : ∃ o ∈ flock, 0 < Vec2.distance b.position o.position ∧
        Vec2.distance b.position o.position < NEIGHBOR_RADIUS) :
    Vec2.length (Boid.separate b flock) ≤ MAX_FORCE ∧
    Vec2.length (Boid.align b flock) ≤ MAX_FORCE ∧
    Vec2.length (Boid.cohesion b flock) ≤ MAX_FORCE :=
  ⟨Boid.length_separate_le b flock, Boid.length_align_le b flock,
    Boid.length_cohesion_le b flock⟩

/-- First of a pair of boids 5 units apart. -/
def bN1 : Boid := ⟨⟨0, 0⟩, ⟨0, 0⟩, ⟨0, 0⟩, 0⟩

/-- Second of a pair of boids 5 units apart. -/
def bN2 : Boid := ⟨⟨5, 0⟩, ⟨0, 0⟩, ⟨0, 0⟩, 0⟩

lemma dist_bN1_bN2 : Vec2.distance bN1.position bN2.position = 5 := by
  show Real.sqrt ((0 - 5) * (0 - 5) + (0 - 0) * (0 - 0)) = 5
  norm_num
  exact Vec2.sqrt_eval (by norm_num) (by norm_num)

/-- Witness for C5 at a concrete pair of boids 5 units apart. -/
theorem steering_le_max_force_witness :
    (0 < Vec2.distance bN1.position bN2.position ∧
      Vec2.distance bN1.position bN2.position < SEPARATION_RADIUS) ∧
    Vec2.length (Boid.separate bN1 [bN1, bN2]) ≤ MAX_FORCE ∧
    Vec2.length (Boid.align bN1 [bN1, bN2]) ≤ MAX_FORCE ∧
    Vec2.length (Boid.cohesion bN1 [bN1, bN2]) ≤ MAX_FORCE := by
  have hd : 0 < Vec2.distance bN1.position bN2.position ∧
      Vec2.distance bN1.position bN2.position < SEPARATION_RADIUS := by
    rw [dist_bN1_bN2]
    norm_num [SEPARATION_RADIUS]
  have hd2 : 0 < Vec2.distance bN1.position bN2.position ∧
      Vec2.distance bN1.position bN2.position < NEIGHBOR_RADIUS := by
    rw [dist_bN1_bN2]
    norm_num [NEIGHBOR_RADIUS]
  exact ⟨hd, steering_le_max_force bN1 [bN1, bN2]
    ⟨bN2, by simp, hd⟩ ⟨bN2, by simp, hd2⟩⟩

/-- C6: if no other agent lies strictly within the rule's radius
(`SEPARATION_RADIUS` for separate, `NEIGHBOR_RADIUS` for align and
cohesion), the rule returns the exact zero vector. -/
theorem steering_no_neighbors_zero (b : Boid) (flock : List Boid) :
    ((∀ o ∈ flock, ¬(0 < Vec2.distance b.position o.position ∧
        Vec2.distance b.position o.position < SEPARATION_RADIUS)) →
      Boid.separate b flock = ⟨0, 0⟩) ∧
    ((∀ o ∈ flock, ¬(0 < Vec2.distance b.position o.position ∧
        Vec2.distance b.position o.position < NEIGHBOR_RADIUS)) →
      Boid.align b flock = ⟨0, 0⟩ ∧ Boid.cohesion b flock = ⟨0, 0⟩) :=
  ⟨fun h => Boid.separate_no_neighbors b flock h,
    fun h => ⟨Boid.align_no_neighbors b flock h, Boid.cohesion_no_neighbors b flock h⟩⟩

/-- An isolated boid (alone in its flock). -/
def bIso : Boid := ⟨⟨600, 400⟩, ⟨1, 1⟩, ⟨0, 0⟩, 0⟩

/-- Witness for C6: an isolated boid receives the exact zero vector from
all three steering rules. -/
theorem steering_no_neighbors_zero_witness :
    Boid.separate bIso [bIso] = ⟨0, 0⟩ ∧ Boid.align bIso [bIso] = ⟨0, 0⟩ ∧
    Boid.cohesion bIso [bIso] = ⟨0, 0⟩ := by
  have h1 : ∀ o ∈ [bIso], ¬(0 < Vec2.distance bIso.position o.position ∧
      Vec2.distance bIso.position o.position < SEPARATION_RADIUS) := by
    intro o ho
    rw [List.mem_singleton] at ho
    subst ho
    rw [Vec2.distance_self]
    rintro ⟨hc, _⟩
    exact lt_irrefl 0 hc
  have h2 : ∀ o ∈ [bIso], ¬(0 < Vec2.distance bIso.position o.position ∧
      Vec2.distance bIso.position o.position < NEIGHBOR_RADIUS) := by
    intro o ho
    rw [List.mem_singleton] at ho
    subst ho
    rw [Vec2.distance_self]
    rintro ⟨hc, _⟩
    exact lt_irrefl 0 hc
  exact ⟨(steering_no_neighbors_zero bIso [bIso]).1 h1,
    ((steering_no_neighbors_zero bIso [bIso]).2 h2).1,
    ((steering_no_neighbors_zero bIso [bIso]).2 h2).2⟩

/-- C7: a boid whose position coincides exactly with the querying boid's
position contributes nothing to any of the three steering rules; in
particular the querying agent never counts itself, even at distance 0,
because the exclusion is the `distance > 0` guard, not identity. -/
theorem coincident_no_contribution (b o : Boid) (l1 l2 : List Boid)
    (h : o.position = b.position) :
    Boid.separate b (l1 ++ o :: l2) = Boid.separate b (l1 ++ l2) ∧
    Boid.align b (l1 ++ o :: l2) = Boid.align b (l1 ++ l2) ∧
    Boid.cohesion b (l1 ++ o :: l2) = Boid.cohesion b (l1 ++ l2) := by
  have hd : Vec2.distance b.position o.position = 0 := by
    rw [h]
    exact Vec2.distance_self _
  have hno : ¬(0 < Vec2.distance b.position o.position ∧
      Vec2.distance b.position o.position < SEPARATION_RADIUS) := by
    rw [hd]
    rintro ⟨hc, _⟩
    exact lt_irrefl 0 hc
  have hno2 : ¬(0 < Vec2.distance b.position o.position ∧
      Vec2.distance b.position o.position < NEIGHBOR_RADIUS) := by
    rw [hd]
    rintro ⟨hc, _⟩
    exact lt_irrefl 0 hc
  refine ⟨?_, ?_, ?_⟩
  · simp only [Boid.separate]
    rw [foldl_skip_middle _ _ _ _ _ (fun acc => Boid.separateStep_skip b o acc hno)]
  · simp only [Boid.align]
    rw [foldl_skip_middle _ _ _ _ _ (fun acc => Boid.alignStep_skip b o acc hno2)]
  · simp only [Boid.cohesion]
    rw [foldl_skip_middle _ _ _ _ _ (fun acc => Boid.cohesionStep_skip b o acc hno2)]

/-- Querying boid for the coincident-position witness. -/
def bP : Boid := ⟨⟨10, 10⟩, ⟨1, 0⟩, ⟨0, 0⟩, 0⟩

/-- Boid at exactly the same position as `bP`, with a different velocity. -/
def bQ : Boid := ⟨⟨10, 10⟩, ⟨0, 1⟩, ⟨0, 0⟩, 0⟩

/-- A third boid 5 units away from `bP`. -/
def bR : Boid := ⟨⟨15, 10⟩, ⟨1, 1⟩, ⟨0, 0⟩, 0⟩

/-- Witness for C7: dropping the boid `bQ`, coincident with `bP`, from the
flock does not change any steering result for `bP`. -/
theorem coincident_no_contribution_witness :
    Boid.separate bP [bQ, bR] = Boid.separate bP [bR] ∧
    Boid.align bP [bQ, bR] = Boid.align bP [bR] ∧
    Boid.cohesion bP [bQ, bR] = Boid.cohesion bP [bR] :=
  coincident_no_contribution bP bQ [] [bR] rfl

namespace Boid

lemma self_guard_false (b : Boid) (r : ℝ) :
    ¬(0 < Vec2.distance b.position b.position ∧
      Vec2.distance b.position b.position < r) := by
  rw [Vec2.distance_self]
  rintro ⟨hc, _⟩
  exact lt_irrefl 0 hc

lemma alignStep_hit (b other : Boid) (acc : Vec2 × ℕ)
    (h : 0 < Vec2.distance b.position other.position ∧
        Vec2.distance b.position other.position < NEIGHBOR_RADIUS) :
    alignStep b acc other = (Vec2.add acc.1 other.velocity, acc.2 + 1) := by
  simp only [alignStep]
  rw [if_pos h]

/-- When the neighbor scan of `align` returns a velocity sum whose average
is the boid's own velocity, and that velocity already has magnitude
`MAX_SPEED`, the alignment steering force is the exact zero vector. -/
lemma align_uniform_velocity_zero (b : Boid) (flock : List Boid) (v s : Vec2) (n : ℕ)
    (hn : 0 < n)
    (hfold : List.foldl (alignStep b) (⟨⟨0, 0⟩, 0⟩ : Vec2 × ℕ) flock = (s, n))
    (hs : Vec2.scale s (1 / (n : ℝ)) = v)
    (hb : b.velocity = v) (hlen : Vec2.length v = MAX_SPEED) :
    align b flock = ⟨0, 0⟩ := by
  simp only [align]
  rw [hfold]
  dsimp only
  rw [if_pos hn, hs]
  have hvpos : 0 < Vec2.length v := by
    rw [hlen]
    norm_num [MAX_SPEED]
  have hnv : Vec2.scale (Vec2.normalize v) MAX_SPEED = v := by
    rw [Vec2.normalize_eq_scale v hvpos, hlen]
    ext
    · show v.x * (1 / MAX_SPEED) * MAX_SPEED = v.x
      norm_num [MAX_SPEED]
      ring
    · show v.y * (1 / MAX_SPEED) * MAX_SPEED = v.y
      norm_num [MAX_SPEED]
      ring
  rw [hnv, hb]
  have hsub : Vec2.sub v v = (⟨0, 0⟩ : Vec2) := by
    ext <;> simp [Vec2.sub]
  rw [hsub, Vec2.length_zero, if_neg (not_lt.mpr (le_of_lt max_force_pos))]

end Boid

/-- C8 (amended): for any 3 agents pairwise within `NEIGHBOR_RADIUS` (and
pairwise distance > 0) having identical velocities whose magnitude is
exactly `MAX_SPEED`, the alignment rule returns the exact zero vector for
each of them. -/
theorem align_uniform_max_speed_zero (b1 b2 b3 : Boid) (v : Vec2)
    (h12 : 0 < Vec2.distance b1.position b2.position ∧
        Vec2.distance b1.position b2.position < NEIGHBOR_RADIUS)
    (h13 : 0 < Vec2.distance b1.position b3.position ∧
        Vec2.distance b1.position b3.position < NEIGHBOR_RADIUS)
    (h23 : 0 < Vec2.distance b2.position b3.position ∧
        Vec2.distance b2.position b3.position < NEIGHBOR_RADIUS)
    (hv1 : b1.velocity = v) (hv2 : b2.velocity = v) (hv3 : b3.velocity = v)
    (hlen : Vec2.length v = MAX_SPEED) :
    Boid.align b1 [b1, b2, b3] = ⟨0, 0⟩ ∧ Boid.align b2 [b1, b2, b3] = ⟨0, 0⟩ ∧
    Boid.align b3 [b1, b2, b3] = ⟨0, 0⟩ := by
  have h21 : 0 < Vec2.distance b2.position b1.position ∧
      Vec2.distance b2.position b1.position < NEIGHBOR_RADIUS := by
    rw [Vec2.distance_comm]
    exact h12
  have h31 : 0 < Vec2.distance b3.position b1.position ∧
      Vec2.distance b3.position b1.position < NEIGHBOR_RADIUS := by
    rw [Vec2.distance_comm]
    exact h13
  have h32 : 0 < Vec2.distance b3.position b2.position ∧
      Vec2.distance b3.position b2.position < NEIGHBOR_RADIUS := by
    rw [Vec2.distance_comm]
    exact h23
  have hs : Vec2.scale (Vec2.add (Vec2.add ⟨0, 0⟩ v) v) (1 / ((2 : ℕ) : ℝ)) = v := by
    ext
    · show (0 + v.x + v.x) * (1 / ((2 : ℕ) : ℝ)) = v.x
      push_cast
      ring
    · show (0 + v.y + v.y) * (1 / ((2 : ℕ) : ℝ)) = v.y
      push_cast
      ring
  refine ⟨?_, ?_, ?_⟩
  · have hfold : List.foldl (Boid.alignStep b1) (⟨⟨0, 0⟩, 0⟩ : Vec2 × ℕ) [b1, b2, b3] =
        (Vec2.add (Vec2.add ⟨0, 0⟩ v) v, 2) := by
      rw [List.foldl_cons, Boid.alignStep_skip _ _ _ (Boid.self_guard_false b1 _),
        List.foldl_cons, Boid.alignStep_hit _ _ _ h12, List.foldl_cons,
        Boid.alignStep_hit _ _ _ h13, List.foldl_nil, hv2, hv3]
    exact Boid.align_uniform_velocity_zero b1 _ v _ 2 (by norm_num) hfold hs hv1 hlen
  · have hfold : List.foldl (Boid.alignStep b2) (⟨⟨0, 0⟩, 0⟩ : Vec2 × ℕ) [b1, b2, b3] =
        (Vec2.add (Vec2.add ⟨0, 0⟩ v) v, 2) := by
      rw [List.foldl_cons, Boid.alignStep_hit _ _ _ h21, List.foldl_cons,
        Boid.alignStep_skip _ _ _ (Boid.self_guard_false b2 _), List.foldl_cons,
        Boid.alignStep_hit _ _ _ h23, List.foldl_nil, hv1, hv3]
    exact Boid.align_uniform_velocity_zero b2 _ v _ 2 (by norm_num) hfold hs hv2 hlen
  · have hfold : List.foldl (Boid.alignStep b3) (⟨⟨0, 0⟩, 0⟩ : Vec2 × ℕ) [b1, b2, b3] =
        (Vec2.add (Vec2.add ⟨0, 0⟩ v) v, 2) := by
      rw [List.foldl_cons, Boid.alignStep_hit _ _ _ h31, List.foldl_cons,
        Boid.alignStep_hit _ _ _ h32, List.foldl_cons,
        Boid.alignStep_skip _ _ _ (Boid.self_guard_false b3 _), List.foldl_nil, hv1, hv2]
    exact Boid.align_uniform_velocity_zero b3 _ v _ 2 (by norm_num) hfold hs hv3 hlen

/-- First of three clustered boids with identical velocity `(1, 0)`. -/
def bD1 : Boid := ⟨⟨0, 0⟩, ⟨1, 0⟩, ⟨0, 0⟩, 0⟩

/-- Second of three clustered boids with identical velocity `(1, 0)`. -/
def bD2 : Boid := ⟨⟨10, 0⟩, ⟨1, 0⟩, ⟨0, 0⟩, 0⟩

/-- Third of three clustered boids with identical velocity `(1, 0)`. -/
def bD3 : Boid := ⟨⟨20, 0⟩, ⟨1, 0⟩, ⟨0, 0⟩, 0⟩

lemma dist_bD1_bD2 : Vec2.distance bD1.position bD2.position = 10 := by
  show Real.sqrt ((0 - 10) * (0 - 10) + (0 - 0) * (0 - 0)) = 10
  norm_num
  exact Vec2.sqrt_eval (by norm_num) (by norm_num)

lemma dist_bD1_bD3 : Vec2.distance bD1.position bD3.position = 20 := by
  show Real.sqrt ((0 - 20) * (0 - 20) + (0 - 0) * (0 - 0)) = 20
  norm_num
  exact Vec2.sqrt_eval (by norm_num) (by norm_num)

lemma dist_bD2_bD3 : Vec2.distance bD2.position bD3.position = 10 := by
  show Real.sqrt ((10 - 20) * (10 - 20) + (0 - 0) * (0 - 0)) = 10
  norm_num
  exact Vec2.sqrt_eval (by norm_num) (by norm_num)

/-- C8 counterexample: three boids pairwise within `NEIGHBOR_RADIUS`, at
pairwise positive distances, all with the identical velocity `(1, 0)` —
yet the alignment force on the first is `(0.1, 0)`, not the zero vector:
the average neighbor velocity is rescaled to `MAX_SPEED` before the boid's
own velocity is subtracted, so identical velocities of magnitude below
`MAX_SPEED` produce a nonzero alignment force. -/
theorem align_identical_velocity_counterexample :
    (0 < Vec2.distance bD1.position bD2.position ∧
      Vec2.distance bD1.position bD2.position < NEIGHBOR_RADIUS) ∧
    (0 < Vec2.distance bD1.position bD3.position ∧
      Vec2.distance bD1.position bD3.position < NEIGHBOR_RADIUS) ∧
    (0 < Vec2.distance bD2.position bD3.position ∧
      Vec2.distance bD2.position bD3.position < NEIGHBOR_RADIUS) ∧
    bD1.velocity = bD2.velocity ∧ bD2.velocity = bD3.velocity ∧
    Boid.align bD1 [bD1, bD2, bD3] = ⟨0.1, 0⟩ ∧
    (⟨0.1, 0⟩ : Vec2) ≠ (⟨0, 0⟩ : Vec2) := by
  have hd12 : 0 < Vec2.distance bD1.position bD2.position ∧
      Vec2.distance bD1.position bD2.position < NEIGHBOR_RADIUS := by
    rw [dist_bD1_bD2]
    norm_num [NEIGHBOR_RADIUS]
  have hd13 : 0 < Vec2.distance bD1.position bD3.position ∧
      Vec2.distance bD1.position bD3.position < NEIGHBOR_RADIUS := by
    rw [dist_bD1_bD3]
    norm_num [NEIGHBOR_RADIUS]
  have hd23 : 0 < Vec2.distance bD2.position bD3.position ∧
      Vec2.distance bD2.position bD3.position < NEIGHBOR_RADIUS := by
    rw [dist_bD2_bD3]
    norm_num [NEIGHBOR_RADIUS]
  have hfold : List.foldl (Boid.alignStep bD1) (⟨⟨0, 0⟩, 0⟩ : Vec2 × ℕ) [bD1, bD2, bD3] =
      ((⟨2, 0⟩ : Vec2), 2) := by
    rw [List.foldl_cons, Boid.alignStep_skip _ _ _ (Boid.self_guard_false bD1 _),
      List.foldl_cons, Boid.alignStep_hit _ _ _ hd12, List.foldl_cons,
      Boid.alignStep_hit _ _ _ hd13, List.foldl_nil]
    refine Prod.ext ?_ rfl
    show Vec2.add (Vec2.add ⟨0, 0⟩ bD2.velocity) bD3.velocity = ⟨2, 0⟩
    ext
    · show 0 + 1 + 1 = (2:ℝ)
      norm_num
    · show 0 + 0 + 0 = (0:ℝ)
      norm_num
  have halign : Boid.align bD1 [bD1, bD2, bD3] = ⟨0.1, 0⟩ := by
    simp only [Boid.align]
    rw [hfold]
    dsimp only
    rw [if_pos (by norm_num : 0 < 2)]
    have havg : Vec2.scale (⟨2, 0⟩ : Vec2) (1 / ((2 : ℕ) : ℝ)) = ⟨1, 0⟩ := by
      ext
      · show 2 * (1 / ((2 : ℕ) : ℝ)) = 1
        push_cast
        norm_num
      · show 0 * (1 / ((2 : ℕ) : ℝ)) = 0
        norm_num
    rw [havg]
    have hlen1 : Vec2.length ⟨1, 0⟩ = 1 := by
      show Real.sqrt (1 * 1 + 0 * 0) = 1
      norm_num
    have hnorm1 : Vec2.normalize ⟨1, 0⟩ = ⟨1, 0⟩ := by
      rw [Vec2.normalize_eq_scale _ (by rw [hlen1]; norm_num), hlen1]
      ext
      · show 1 * (1 / (1:ℝ)) = 1
        norm_num
      · show 0 * (1 / (1:ℝ)) = 0
        norm_num
    rw [hnorm1]
    have hscale : Vec2.scale (⟨1, 0⟩ : Vec2) MAX_SPEED = ⟨2.5, 0⟩ := by
      ext
      · show 1 * MAX_SPEED = 2.5
        norm_num [MAX_SPEED]
      · show 0 * MAX_SPEED = 0
        norm_num
    rw [hscale]
    have hsub : Vec2.sub (⟨2.5, 0⟩ : Vec2) bD1.velocity = ⟨1.5, 0⟩ := by
      ext
      · show 2.5 - 1 = (1.5:ℝ)
        norm_num
      · show 0 - 0 = (0:ℝ)
        norm_num
    rw [hsub]
    have hlen15 : Vec2.length ⟨1.5, 0⟩ = 1.5 := by
      show Real.sqrt (1.5 * 1.5 + 0 * 0) = 1.5
      exact Vec2.sqrt_eval (by norm_num) (by norm_num)
    rw [if_pos (by rw [hlen15]; norm_num [MAX_FORCE] : MAX_FORCE < Vec2.length ⟨1.5, 0⟩)]
    have hnorm15 : Vec2.normalize ⟨1.5, 0⟩ = ⟨1, 0⟩ := by
      rw [Vec2.normalize_eq_scale _ (by rw [hlen15]; norm_num), hlen15]
      ext
      · show 1.5 * (1 / (1.5:ℝ)) = 1
        norm_num
      · show 0 * (1 / (1.5:ℝ)) = 0
        norm_num
    rw [hnorm15]
    ext
    · show 1 * MAX_FORCE = 0.1
      norm_num [MAX_FORCE]
    · show 0 * MAX_FORCE = 0
      norm_num
  refine ⟨hd12, hd13, hd23, rfl, rfl, halign, ?_⟩
  intro hc
  have hcx := congrArg Vec2.x hc
  norm_num at hcx

/-- First of three clustered boids with identical full-speed velocity. -/
def bE1 : Boid := ⟨⟨0, 0⟩, ⟨2.5, 0⟩, ⟨0, 0⟩, 0⟩

/-- Second of three clustered boids with identical full-speed velocity. -/
def bE2 : Boid := ⟨⟨10, 0⟩, ⟨2.5, 0⟩, ⟨0, 0⟩, 0⟩

/-- Third of three clustered boids with identical full-speed velocity. -/
def bE3 : Boid := ⟨⟨20, 0⟩, ⟨2.5, 0⟩, ⟨0, 0⟩, 0⟩

/-- Witness for C8 (amended) at three concrete clustered boids whose
common velocity has magnitude exactly `MAX_SPEED`. -/
theorem align_uniform_max_speed_zero_witness :
    Boid.align bE1 [bE1, bE2, bE3] = ⟨0, 0⟩ ∧ Boid.align bE2 [bE1, bE2, bE3] = ⟨0, 0⟩ ∧
    Boid.align bE3 [bE1, bE2, bE3] = ⟨0, 0⟩ := by
  have d12 : Vec2.distance bE1.position bE2.position = 10 := by
    show Real.sqrt ((0 - 10) * (0 - 10) + (0 - 0) * (0 - 0)) = 10
    norm_num
    exact Vec2.sqrt_eval (by norm_num) (by norm_num)
  have d13 : Vec2.distance bE1.position bE3.position = 20 := by
    show Real.sqrt ((0 - 20) * (0 - 20) + (0 - 0) * (0 - 0)) = 20
    norm_num
    exact Vec2.sqrt_eval (by norm_num) (by norm_num)
  have d23 : Vec2.distance bE2.position bE3.position = 10 := by
    show Real.sqrt ((10 - 20) * (10 - 20) + (0 - 0) * (0 - 0)) = 10
    norm_num
    exact Vec2.sqrt_eval (by norm_num) (by norm_num)
  have hlen : Vec2.length (⟨2.5, 0⟩ : Vec2) = MAX_SPEED := by
    show Real.sqrt (2.5 * 2.5 + 0 * 0) = MAX_SPEED
    rw [show (2.5 * 2.5 + 0 * 0 : ℝ) = 6.25 by norm_num]
    rw [show MAX_SPEED = 2.5 from rfl]
    exact Vec2.sqrt_eval (by norm_num) (by norm_num)
  exact align_uniform_max_speed_zero bE1 bE2 bE3 ⟨2.5, 0⟩
    (by rw [d12]; norm_num [NEIGHBOR_RADIUS])
    (by rw [d13]; norm_num [NEIGHBOR_RADIUS])
    (by rw [d23]; norm_num [NEIGHBOR_RADIUS])
    rfl rfl rfl hlen

/-- Positions lying in the closed screen box `[0, screenWidth] × [0, screenHeight]`. -/
def inBoxClosed (p : Vec2) : Prop :=
  0 ≤ p.x ∧ p.x ≤ screenWidth ∧ 0 ≤ p.y ∧ p.y ≤ screenHeight

lemma inBoxClosed_borders (b : Boid) : inBoxClosed (Boid.borders b).position := by
  have hx := Boid.wrapCoord_mem b.position.x screenWidth (by norm_num [screenWidth])
  have hy := Boid.wrapCoord_mem b.position.y screenHeight (by norm_num [screenHeight])
  exact ⟨hx.1, hx.2, hy.1, hy.2⟩

lemma inBoxClosed_processBoid (flock : List Boid) (b : Boid) :
    inBoxClosed (processBoid flock b).position := by
  simp only [processBoid]
  exact inBoxClosed_borders _

lemma runTick_mem_inBox (rest : List Boid) :
    ∀ done : List Boid, (∀ b ∈ done, inBoxClosed b.position) →
      ∀ b ∈ runTick done rest, inBoxClosed b.position := by
  induction rest with
  | nil =>
      intro done h b hb
      simp only [runTick] at hb
      exact h b hb
  | cons a rest ih =>
      intro done h b hb
      simp only [runTick] at hb
      refine ih _ ?_ b hb
      intro c hc
      rcases List.mem_append.mp hc with hc | hc
      · exact h c hc
      · rw [List.mem_singleton] at hc
        subst hc
        exact inBoxClosed_processBoid _ _

/-- C4 (amended): in every reachable state of the simulation — an initial
flock produced by the constructor calls in `main`, or any state obtained
from one by whole ticks — every agent's position lies in the closed box
`[0, screenWidth] × [0, screenHeight]`.  (The open box of the claim fails:
both the initial randomization and the below-zero branch of `borders` can
put a coordinate exactly at the upper bound.) -/
theorem reachable_position_in_closed_box (flock : List Boid) (h : Reachable flock) :
    ∀ b ∈ flock, inBoxClosed b.position := by
  induction h with
  | init flock h =>
      intro b hb
      obtain ⟨⟨i, hi0, hiW, hx⟩, ⟨j, hj0, hjH, hy⟩, -⟩ := h b hb
      refine ⟨?_, ?_, ?_, ?_⟩
      · rw [hx]
        exact_mod_cast hi0
      · rw [hx]
        exact hiW
      · rw [hy]
        exact_mod_cast hj0
      · rw [hy]
        exact hjH
  | step flock _h _ih =>
      exact runTick_mem_inBox flock [] (by intro b hb; simp at hb)

/-- Boid exactly at the right screen edge, a legal initial state because
`GetRandomValue(0, screenWidth)` is inclusive on both ends. -/
def bCE4 : Boid := ⟨⟨1200, 0⟩, ⟨1, 0⟩, ⟨0, 0⟩, atan2 0 1⟩

lemma initBoid_bCE4 : initBoid bCE4 := by
  refine ⟨⟨1200, by norm_num, by norm_num [screenWidth], by norm_num [bCE4]⟩,
    ⟨0, by norm_num, by norm_num [screenHeight], by norm_num [bCE4]⟩,
    ⟨1, by norm_num, by norm_num, by norm_num [bCE4]⟩,
    ⟨0, by norm_num, by norm_num, by norm_num [bCE4]⟩, rfl, rfl⟩

lemma reachable_bCE4 : Reachable [bCE4] := by
  refine Reachable.init _ ?_
  intro b hb
  rw [List.mem_singleton] at hb
  subst hb
  exact initBoid_bCE4

/-- C4 counterexample: the single-boid flock whose boid sits at position
`(1200, 0)` is a reachable (indeed initial) state, yet its position does
not lie in the half-open box `[0, screenWidth) × [0, screenHeight)`. -/
theorem reachable_position_open_box_counterexample :
    Reachable [bCE4] ∧
    ¬(∀ b ∈ [bCE4], 0 ≤ b.position.x ∧ b.position.x < screenWidth ∧
        0 ≤ b.position.y ∧ b.position.y < screenHeight) := by
  refine ⟨reachable_bCE4, ?_⟩
  intro hall
  obtain ⟨-, hlt, -⟩ := hall bCE4 (List.mem_singleton.mpr rfl)
  have hx : bCE4.position.x = 1200 := rfl
  rw [hx] at hlt
  norm_num [screenWidth] at hlt

/-- Witness for C4 (amended) at the concrete reachable flock `[bCE4]`. -/
theorem reachable_position_in_closed_box_witness :
    Reachable [bCE4] ∧ inBoxClosed bCE4.position :=
  ⟨reachable_bCE4,
    reachable_position_in_closed_box [bCE4] reachable_bCE4 bCE4 (List.mem_singleton.mpr rfl)⟩

lemma guards_false_of_far (p q : Vec2) (r d : ℝ) (hd : Vec2.distance p q = d)
    (hge : r ≤ d) :
    ¬(0 < Vec2.distance p q ∧ Vec2.distance p q < r) := by
  rw [hd]
  rintro ⟨-, hc⟩
  linarith

namespace Boid

lemma cohesionStep_hit (b other : Boid) (acc : Vec2 × ℕ)
    (h : 0 < Vec2.distance b.position other.position ∧
        Vec2.distance b.position other.position < NEIGHBOR_RADIUS) :
    cohesionStep b acc other = (Vec2.add acc.1 other.position, acc.2 + 1) := by
  simp only [cohesionStep]
  rw [if_pos h]

lemma update_eval (b : Boid) (v : Vec2)
    (hv : Vec2.scale (Vec2.normalize (Vec2.add b.velocity b.acceleration)) MAX_SPEED = v) :
    update b = ⟨Vec2.add b.position v, v, ⟨0, 0⟩, atan2 v.y v.x⟩ := by
  simp only [update]
  rw [hv]

lemma applyForce_zero (b : Boid) : applyForce b ⟨0, 0⟩ = b := by
  simp only [applyForce, Vec2.add_zero_right]

end Boid

lemma processBoid_no_force (flock : List Boid) (b : Boid)
    (h1 : Boid.separate b flock = ⟨0, 0⟩) (h2 : Boid.align b flock = ⟨0, 0⟩)
    (h3 : Boid.cohesion b flock = ⟨0, 0⟩) :
    processBoid flock b = Boid.borders (Boid.update b) := by
  simp only [processBoid]
  rw [h1, h2, h3, Vec2.scale_zero_vec, Vec2.scale_zero_vec, Vec2.scale_zero_vec,
    Boid.applyForce_zero, Boid.applyForce_zero, Boid.applyForce_zero]

lemma processBoid_velocity (flock : List Boid) (b : Boid) :
    (processBoid flock b).velocity =
      Vec2.scale (Vec2.normalize (Vec2.add b.velocity
        (Vec2.add (Vec2.add (Vec2.add b.acceleration
          (Vec2.scale (Boid.separate b flock) SEPARATION_WEIGHT))
          (Vec2.scale (Boid.align b flock) ALIGNMENT_WEIGHT))
          (Vec2.scale (Boid.cohesion b flock) COHESION_WEIGHT)))) MAX_SPEED := rfl

/-- First boid of the sequential-versus-snapshot comparison: at the origin,
moving right. -/
def bA : Boid := ⟨⟨0, 0⟩, ⟨1, 0⟩, ⟨0, 0⟩, 0⟩

/-- Second boid of the comparison: 101 units to the right of `bA` (just
outside `NEIGHBOR_RADIUS`), moving up at full speed. -/
def bB : Boid := ⟨⟨101, 0⟩, ⟨0, 2.5⟩, ⟨0, 0⟩, 0⟩

/-- The state of `bA` after one isolated update. -/
def bA1 : Boid := ⟨⟨2.5, 0⟩, ⟨2.5, 0⟩, ⟨0, 0⟩, atan2 0 2.5⟩

/-- The state of `bB` after one isolated update. -/
def bB1 : Boid := ⟨⟨101, 2.5⟩, ⟨0, 2.5⟩, ⟨0, 0⟩, atan2 2.5 0⟩

lemma dist_bA_bB : Vec2.distance bA.position bB.position = 101 := by
  show Real.sqrt ((0 - 101) * (0 - 101) + (0 - 0) * (0 - 0)) = 101
  exact Vec2.sqrt_eval (by norm_num) (by norm_num)

lemma dist_bB_bA : Vec2.distance bB.position bA.position = 101 := by
  rw [Vec2.distance_comm]
  exact dist_bA_bB

lemma dist_bB_bA1 : Vec2.distance bB.position bA1.position = 98.5 := by
  show Real.sqrt ((101 - 2.5) * (101 - 2.5) + (0 - 0) * (0 - 0)) = 98.5
  exact Vec2.sqrt_eval (by norm_num) (by norm_num)

lemma proc_bA_snap : processBoid [bA, bB] bA = bA1 := by
  have hfar : ∀ o ∈ [bA, bB], ∀ r : ℝ, r ≤ 101 →
      ¬(0 < Vec2.distance bA.position o.position ∧
        Vec2.distance bA.position o.position < r) := by
    intro o ho r hr
    simp only [List.mem_cons, List.not_mem_nil, or_false] at ho
    rcases ho with rfl | rfl
    · exact Boid.self_guard_false _ _
    · exact guards_false_of_far _ _ _ 101 dist_bA_bB hr
  have hsep : Boid.separate bA [bA, bB] = ⟨0, 0⟩ :=
    Boid.separate_no_neighbors _ _
      (fun o ho => hfar o ho SEPARATION_RADIUS (by norm_num [SEPARATION_RADIUS]))
  have hali : Boid.align bA [bA, bB] = ⟨0, 0⟩ :=
    Boid.align_no_neighbors _ _
      (fun o ho => hfar o ho NEIGHBOR_RADIUS (by norm_num [NEIGHBOR_RADIUS]))
  have hcoh : Boid.cohesion bA [bA, bB] = ⟨0, 0⟩ :=
    Boid.cohesion_no_neighbors _ _
      (fun o ho => hfar o ho NEIGHBOR_RADIUS (by norm_num [NEIGHBOR_RADIUS]))
  have hv : Vec2.scale (Vec2.normalize (Vec2.add bA.velocity bA.acceleration)) MAX_SPEED =
      ⟨2.5, 0⟩ := by
    have hadd : Vec2.add bA.velocity bA.acceleration = ⟨1, 0⟩ := by
      ext
      · show (1:ℝ) + 0 = 1
        norm_num
      · show (0:ℝ) + 0 = 0
        norm_num
    rw [hadd]
    have hlen1 : Vec2.length ⟨1, 0⟩ = 1 := by
      show Real.sqrt (1 * 1 + 0 * 0) = 1
      norm_num
    rw [Vec2.normalize_eq_scale _ (by rw [hlen1]; norm_num), hlen1]
    ext
    · show 1 * (1 / (1:ℝ)) * MAX_SPEED = 2.5
      norm_num [MAX_SPEED]
    · show 0 * (1 / (1:ℝ)) * MAX_SPEED = 0
      norm_num
  rw [processBoid_no_force _ _ hsep hali hcoh, Boid.update_eval bA _ hv]
  ext
  · show Boid.wrapCoord (0 + 2.5) screenWidth = 2.5
    rw [show (0 + 2.5 : ℝ) = 2.5 by norm_num,
      Boid.wrapCoord_of_mem _ _ (by norm_num) (by norm_num [screenWidth])]
  · show Boid.wrapCoord (0 + 0) screenHeight = 0
    rw [show (0 + 0 : ℝ) = 0 by norm_num,
      Boid.wrapCoord_of_mem _ _ le_rfl (by norm_num [screenHeight])]
  · rfl
  · rfl
  · rfl
  · rfl
  · rfl

lemma proc_bB_snap : processBoid [bA, bB] bB = bB1 := by
  have hfar : ∀ o ∈ [bA, bB], ∀ r : ℝ, r ≤ 101 →
      ¬(0 < Vec2.distance bB.position o.position ∧
        Vec2.distance bB.position o.position < r) := by
    intro o ho r hr
    simp only [List.mem_cons, List.not_mem_nil, or_false] at ho
    rcases ho with rfl | rfl
    · exact guards_false_of_far _ _ _ 101 dist_bB_bA hr
    · exact Boid.self_guard_false _ _
  have hsep : Boid.separate bB [bA, bB] = ⟨0, 0⟩ :=
    Boid.separate_no_neighbors _ _
      (fun o ho => hfar o ho SEPARATION_RADIUS (by norm_num [SEPARATION_RADIUS]))
  have hali : Boid.align bB [bA, bB] = ⟨0, 0⟩ :=
    Boid.align_no_neighbors _ _
      (fun o ho => hfar o ho NEIGHBOR_RADIUS (by norm_num [NEIGHBOR_RADIUS]))
  have hcoh : Boid.cohesion bB [bA, bB] = ⟨0, 0⟩ :=
    Boid.cohesion_no_neighbors _ _
      (fun o ho => hfar o ho NEIGHBOR_RADIUS (by norm_num [NEIGHBOR_RADIUS]))
  have hv : Vec2.scale (Vec2.normalize (Vec2.add bB.velocity bB.acceleration)) MAX_SPEED =
      ⟨0, 2.5⟩ := by
    have hadd : Vec2.add bB.velocity bB.acceleration = ⟨0, 2.5⟩ := by
      ext
      · show (0:ℝ) + 0 = 0
        norm_num
      · show (2.5:ℝ) + 0 = 2.5
        norm_num
    rw [hadd]
    have hlen25 : Vec2.length ⟨0, 2.5⟩ = 2.5 := by
      show Real.sqrt (0 * 0 + 2.5 * 2.5) = 2.5
      exact Vec2.sqrt_eval (by norm_num) (by norm_num)
    rw [Vec2.normalize_eq_scale _ (by rw [hlen25]; norm_num), hlen25]
    ext
    · show 0 * (1 / (2.5:ℝ)) * MAX_SPEED = 0
      norm_num
    · show 2.5 * (1 / (2.5:ℝ)) * MAX_SPEED = 2.5
      norm_num [MAX_SPEED]
  rw [processBoid_no_force _ _ hsep hali hcoh, Boid.update_eval bB _ hv]
  ext
  · show Boid.wrapCoord (101 + 0) screenWidth = 101
    rw [show (101 + 0 : ℝ) = 101 by norm_num,
      Boid.wrapCoord_of_mem _ _ (by norm_num) (by norm_num [screenWidth])]
  · show Boid.wrapCoord (0 + 2.5) screenHeight = 2.5
    rw [show (0 + 2.5 : ℝ) = 2.5 by norm_num,
      Boid.wrapCoord_of_mem _ _ (by norm_num) (by norm_num [screenHeight])]
  · rfl
  · rfl
  · rfl
  · rfl
  · rfl

lemma sqrt_12_5_pos : 0 < Real.sqrt 12.5 := Real.sqrt_pos.mpr (by norm_num)

lemma max_force_lt_sqrt_12_5 : MAX_FORCE < Real.sqrt 12.5 := by
  have h : (MAX_FORCE : ℝ) ^ 2 < 12.5 := by
    norm_num [MAX_FORCE]
  exact (Real.lt_sqrt (by norm_num [MAX_FORCE])).mpr h

lemma sep_bB_seq : Boid.separate bB [bA1, bB] = ⟨0, 0⟩ := by
  refine Boid.separate_no_neighbors _ _ ?_
  intro o ho
  simp only [List.mem_cons, List.not_mem_nil, or_false] at ho
  rcases ho with rfl | rfl
  · exact guards_false_of_far _ _ _ 98.5 dist_bB_bA1 (by norm_num [SEPARATION_RADIUS])
  · exact Boid.self_guard_false _ _

lemma hit_bB_bA1 : 0 < Vec2.distance bB.position bA1.position ∧
    Vec2.distance bB.position bA1.position < NEIGHBOR_RADIUS := by
  rw [dist_bB_bA1]
  norm_num [NEIGHBOR_RADIUS]

lemma avg_one_25 : Vec2.scale (Vec2.add ⟨0, 0⟩ ⟨2.5, 0⟩) (1 / ((1 : ℕ) : ℝ)) =
    (⟨2.5, 0⟩ : Vec2) := by
  ext
  · show (0 + 2.5) * (1 / ((1 : ℕ) : ℝ)) = 2.5
    push_cast
    norm_num
  · show (0 + 0) * (1 / ((1 : ℕ) : ℝ)) = 0
    norm_num

lemma norm_25_0 : Vec2.normalize ⟨2.5, 0⟩ = ⟨1, 0⟩ := by
  have hlen25 : Vec2.length ⟨2.5, 0⟩ = 2.5 := by
    show Real.sqrt (2.5 * 2.5 + 0 * 0) = 2.5
    exact Vec2.sqrt_eval (by norm_num) (by norm_num)
  rw [Vec2.normalize_eq_scale _ (by rw [hlen25]; norm_num), hlen25]
  ext
  · show 2.5 * (1 / (2.5:ℝ)) = 1
    norm_num
  · show 0 * (1 / (2.5:ℝ)) = 0
    norm_num

lemma len_25_n25 : Vec2.length ⟨2.5, -2.5⟩ = Real.sqrt 12.5 := by
  show Real.sqrt (2.5 * 2.5 + (-2.5) * (-2.5)) = Real.sqrt 12.5
  rw [show (2.5 * 2.5 + (-2.5) * (-2.5) : ℝ) = 12.5 by norm_num]

lemma len_n25_n25 : Vec2.length ⟨-2.5, -2.5⟩ = Real.sqrt 12.5 := by
  show Real.sqrt ((-2.5) * (-2.5) + (-2.5) * (-2.5)) = Real.sqrt 12.5
  rw [show ((-2.5) * (-2.5) + (-2.5) * (-2.5) : ℝ) = 12.5 by norm_num]

lemma ali_bB_seq : Boid.align bB [bA1, bB] =
    Vec2.scale (Vec2.scale ⟨2.5, -2.5⟩ (1 / Real.sqrt 12.5)) MAX_FORCE := by
  have hfold : List.foldl (Boid.alignStep bB) (⟨⟨0, 0⟩, 0⟩ : Vec2 × ℕ) [bA1, bB] =
      (Vec2.add ⟨0, 0⟩ ⟨2.5, 0⟩, 1) := by
    rw [List.foldl_cons, Boid.alignStep_hit _ _ _ hit_bB_bA1, List.foldl_cons,
      Boid.alignStep_skip _ _ _ (Boid.self_guard_false bB _), List.foldl_nil]
    rfl
  simp only [Boid.align]
  rw [hfold]
  dsimp only
  rw [if_pos (by norm_num : 0 < 1), avg_one_25, norm_25_0]
  have hscale : Vec2.scale (⟨1, 0⟩ : Vec2) MAX_SPEED = ⟨2.5, 0⟩ := by
    ext
    · show 1 * MAX_SPEED = 2.5
      norm_num [MAX_SPEED]
    · show 0 * MAX_SPEED = 0
      norm_num
  rw [hscale]
  have hsub : Vec2.sub (⟨2.5, 0⟩ : Vec2) bB.velocity = ⟨2.5, -2.5⟩ := by
    ext
    · show 2.5 - 0 = (2.5:ℝ)
      norm_num
    · show 0 - 2.5 = (-2.5:ℝ)
      norm_num
  rw [hsub]
  rw [if_pos (by rw [len_25_n25]; exact max_force_lt_sqrt_12_5)]
  rw [Vec2.normalize_eq_scale _ (by rw [len_25_n25]; exact sqrt_12_5_pos), len_25_n25]

lemma coh_bB_seq : Boid.cohesion bB [bA1, bB] =
    Vec2.scale (Vec2.scale ⟨-2.5, -2.5⟩ (1 / Real.sqrt 12.5)) MAX_FORCE := by
  have hfold : List.foldl (Boid.cohesionStep bB) (⟨⟨0, 0⟩, 0⟩ : Vec2 × ℕ) [bA1, bB] =
      (Vec2.add ⟨0, 0⟩ ⟨2.5, 0⟩, 1) := by
    rw [List.foldl_cons, Boid.cohesionStep_hit _ _ _ hit_bB_bA1, List.foldl_cons,
      Boid.cohesionStep_skip _ _ _ (Boid.self_guard_false bB _), List.foldl_nil]
    rfl
  simp only [Boid.cohesion]
  rw [hfold]
  dsimp only
  rw [if_pos (by norm_num : 0 < 1), avg_one_25]
  have hsub1 : Vec2.sub (⟨2.5, 0⟩ : Vec2) bB.position = ⟨-98.5, 0⟩ := by
    ext
    · show 2.5 - 101 = (-98.5:ℝ)
      norm_num
    · show 0 - 0 = (0:ℝ)
      norm_num
  rw [hsub1]
  have hnormneg : Vec2.normalize ⟨-98.5, 0⟩ = ⟨-1, 0⟩ := by
    have hlen985 : Vec2.length ⟨-98.5, 0⟩ = 98.5 := by
      show Real.sqrt ((-98.5) * (-98.5) + 0 * 0) = 98.5
      exact Vec2.sqrt_eval (by norm_num) (by norm_num)
    rw [Vec2.normalize_eq_scale _ (by rw [hlen985]; norm_num), hlen985]
    ext
    · show -98.5 * (1 / (98.5:ℝ)) = -1
      norm_num
    · show 0 * (1 / (98.5:ℝ)) = 0
      norm_num
  rw [hnormneg]
  have hscale : Vec2.scale (⟨-1, 0⟩ : Vec2) MAX_SPEED = ⟨-2.5, 0⟩ := by
    ext
    · show -1 * MAX_SPEED = -2.5
      norm_num [MAX_SPEED]
    · show 0 * MAX_SPEED = 0
      norm_num
  rw [hscale]
  have hsub2 : Vec2.sub (⟨-2.5, 0⟩ : Vec2) bB.velocity = ⟨-2.5, -2.5⟩ := by
    ext
    · show -2.5 - 0 = (-2.5:ℝ)
      norm_num
    · show 0 - 2.5 = (-2.5:ℝ)
      norm_num
  rw [hsub2]
  rw [if_pos (by rw [len_n25_n25]; exact max_force_lt_sqrt_12_5)]
  rw [Vec2.normalize_eq_scale _ (by rw [len_n25_n25]; exact sqrt_12_5_pos), len_n25_n25]

/-- C3 counterexample: on the concrete two-boid flock `[bA, bB]`, the
sequential in-place tick of `main` differs from the fully snapshotted
two-phase tick: after `bA` moves, `bB` finds `bA` inside
`NEIGHBOR_RADIUS` and picks up a steering force that the snapshot
semantics never produces. -/
theorem seq_tick_ne_snapshot_tick : seqTick [bA, bB] ≠ snapTick [bA, bB] := by
  have hseq : seqTick [bA, bB] = [bA1, processBoid [bA1, bB] bB] := by
    simp only [seqTick, runTick, List.nil_append, List.singleton_append, List.cons_append,
      List.append_nil]
    rw [proc_bA_snap]
  have hsnap : snapTick [bA, bB] = [bA1, bB1] := by
    simp only [snapTick, List.map_cons, List.map_nil]
    rw [proc_bA_snap, proc_bB_snap]
  intro heq
  rw [hseq, hsnap] at heq
  simp only [List.cons.injEq, and_true] at heq
  have h2 : processBoid [bA1, bB] bB = bB1 := heq.2
  set wv : Vec2 := ⟨-(1/10) * (1 / Real.sqrt 12.5), 5/2 - (3/20) * (1 / Real.sqrt 12.5)⟩
    with hwv
  have hw : Vec2.add bB.velocity
      (Vec2.add (Vec2.add (Vec2.add bB.acceleration
        (Vec2.scale (Boid.separate bB [bA1, bB]) SEPARATION_WEIGHT))
        (Vec2.scale (Boid.align bB [bA1, bB]) ALIGNMENT_WEIGHT))
        (Vec2.scale (Boid.cohesion bB [bA1, bB]) COHESION_WEIGHT)) = wv := by
    rw [sep_bB_seq, ali_bB_seq, coh_bB_seq, hwv]
    ext
    · show 0 + (0 + 0 * SEPARATION_WEIGHT + 2.5 * (1 / Real.sqrt 12.5) * MAX_FORCE *
          ALIGNMENT_WEIGHT + -2.5 * (1 / Real.sqrt 12.5) * MAX_FORCE * COHESION_WEIGHT) =
        -(1/10) * (1 / Real.sqrt 12.5)
      norm_num [ALIGNMENT_WEIGHT, COHESION_WEIGHT, MAX_FORCE]
      ring
    · show 2.5 + (0 + 0 * SEPARATION_WEIGHT + -2.5 * (1 / Real.sqrt 12.5) * MAX_FORCE *
          ALIGNMENT_WEIGHT + -2.5 * (1 / Real.sqrt 12.5) * MAX_FORCE * COHESION_WEIGHT) =
        5/2 - (3/20) * (1 / Real.sqrt 12.5)
      norm_num [ALIGNMENT_WEIGHT, COHESION_WEIGHT, MAX_FORCE]
      ring
  have hwx_neg : wv.x < 0 := by
    rw [hwv]
    show -(1/10) * (1 / Real.sqrt 12.5) < 0
    have h1 : 0 < 1 / Real.sqrt 12.5 := one_div_pos.mpr sqrt_12_5_pos
    nlinarith
  have hne : wv ≠ ⟨0, 0⟩ := by
    intro hc
    have hcx := congrArg Vec2.x hc
    rw [hcx] at hwx_neg
    exact lt_irrefl 0 hwx_neg
  have hlpos : 0 < Vec2.length wv := (Vec2.length_pos_iff _).mpr hne
  have hvel : (processBoid [bA1, bB] bB).velocity =
      Vec2.scale (Vec2.normalize wv) MAX_SPEED := by
    rw [processBoid_velocity, hw]
  have hvx : (processBoid [bA1, bB] bB).velocity.x = bB1.velocity.x := by rw [h2]
  rw [hvel, Vec2.normalize_eq_scale _ hlpos] at hvx
  have h0 : wv.x * (1 / Vec2.length wv) * MAX_SPEED = 0 := hvx
  have hneg : wv.x * (1 / Vec2.length wv) * MAX_SPEED < 0 := by
    apply mul_neg_of_neg_of_pos
    · exact mul_neg_of_neg_of_pos hwx_neg (one_div_pos.mpr hlpos)
    · norm_num [MAX_SPEED]
  rw [h0] at hneg
  exact lt_irrefl 0 hneg

/-- C3 (amended): within one `main` loop iteration a boid's three steering
queries all read the same flock state, but the loop updates the vector in
place, so a later boid can observe an earlier boid's already-updated
state; the sequential tick therefore agrees with the fully snapshotted
two-phase tick only in special cases, such as a single-agent flock. -/
theorem seq_tick_eq_snapshot_tick_singleton (b : Boid) : seqTick [b] = snapTick [b] := by
  simp only [seqTick, runTick, snapTick, List.map_cons, List.map_nil, List.nil_append]
